import Mathlib

/-!
Verification of `src/ZIP4PAPA/database/query_database.py`.

The script `query_wallet_database` connects to an SQLite database, reads the
`wallets` table and prints a textual report.  We embed it shallowly:

* a row of the `wallets` table is a `WalletRecord`;
* the table is a `List WalletRecord` in natural storage order;
* `SELECT * FROM wallets ORDER BY RANDOM() LIMIT 5` is modelled by a
  parameter `randPerm`, an arbitrary permutation of the table, of which the
  first 5 rows are taken;
* Python `int / int` true division and `f"{x:5.1f}"` formatting are modelled
  over exact rationals; rounding to one decimal uses round-half-to-even,
  which is Python's rounding mode both for `round(x, 1)` and for `"%.1f"`;
* the `ZeroDivisionError` raised on an empty table is modelled by the run
  stopping with `ok = false` after the lines printed before the first
  division;
* every database statement the script issues is recorded in an event trace
  (`DbEvent`), which also has write constructors (`insertRow`, `deleteRows`)
  so that read-only-ness of the run is a meaningful statement.
-/

/-- One row of the `wallets` table, with the six columns in schema order:
`(wallet_name, rebalance, open_order, open_position, new_balance, check_balance)`. -/
structure WalletRecord where
  wallet_name : String
  rebalance : Int
  open_order : Int
  open_position : Int
  new_balance : Int
  check_balance : Int
deriving DecidableEq, Repr

/-- The five flag columns of the `wallets` table. -/
inductive FieldName where
  | rebalance
  | open_order
  | open_position
  | new_balance
  | check_balance
deriving DecidableEq, Repr

/-- Value of a flag column in a row. -/
def fieldVal (f : FieldName) (r : WalletRecord) : Int :=
  match f with
  | .rebalance => r.rebalance
  | .open_order => r.open_order
  | .open_position => r.open_position
  | .new_balance => r.new_balance
  | .check_balance => r.check_balance

/-- Python name of a flag column, as it appears in the printed report. -/
def fieldStr (f : FieldName) : String :=
  match f with
  | .rebalance => "rebalance"
  | .open_order => "open_order"
  | .open_position => "open_position"
  | .new_balance => "new_balance"
  | .check_balance => "check_balance"

/-- The list `fields = ['rebalance', 'open_order', 'open_position',
'new_balance', 'check_balance']` from the script, in source order. -/
def fieldsList : List FieldName :=
  [.rebalance, .open_order, .open_position, .new_balance, .check_balance]

/-- `SELECT COUNT(*) FROM wallets WHERE {field} = 1`: the number of rows of
the table whose value in column `f` equals `1`. -/
def countOnes (table : List WalletRecord) (f : FieldName) : Nat :=
  (table.filter (fun r => fieldVal f r = 1)).length

/-- A string of `n` spaces. -/
def spaces (n : Nat) : String :=
  String.mk (List.replicate n ' ')

/-- Python string formatting with a plain width, e.g. `f"{s:11}"`: text is
left-aligned, padded on the right with spaces up to width `w`, and never
truncated (Nat subtraction makes the pad empty when `s` is already wider). -/
def padRightTo (s : String) (w : Nat) : String :=
  s ++ spaces (w - s.length)

/-- Python numeric formatting with a plain width, e.g. `f"{n:3}"`: the number
is right-aligned, padded on the left with spaces up to width `w`. -/
def padLeftTo (s : String) (w : Nat) : String :=
  spaces (w - s.length) ++ s

/-- The percentage `(count_ones / total_count) * 100`, in tenths of a percent,
rounded half-to-even: the integer algorithm embedding how
`f"{percentage:5.1f}"` renders the Python double `(K / N) * 100`.
`num = 1000 * K` over denominator `N`; the quotient is rounded to the nearest
integer, ties going to the even neighbour. -/
def pyTenths (K N : Nat) : Nat :=
  let num := 1000 * K
  let q := num / N
  let r := num % N
  if 2 * r < N then q
  else if N < 2 * r then q + 1
  else if q % 2 = 0 then q else q + 1

/-- Decimal rendering of a number of tenths, e.g. `505` becomes `"50.5"`. -/
def tenthsRepr (t : Nat) : String :=
  toString (t / 10) ++ "." ++ toString (t % 10)

/-- The percentage cell `f"{percentage:5.1f}"`: one decimal place,
right-aligned in (at least) 5 characters. -/
def percentCell (K N : Nat) : String :=
  padLeftTo (tenthsRepr (pyTenths K N)) 5

/-- The statistics line
`f"{field:15}: {count_ones:3} records ({percentage:5.1f}%)"` for field `f`
of a table with `N` total rows. -/
def statsLine (table : List WalletRecord) (N : Nat) (f : FieldName) : String :=
  padRightTo (fieldStr f) 15 ++ ": " ++
    padLeftTo (toString (countOnes table f)) 3 ++ " records (" ++
    percentCell (countOnes table f) N ++ "%)"

/-- A sample row line
`f"{record[0]:11} | {record[1]:9} | {record[2]:10} | {record[3]:13} | {record[4]:11} | {record[5]:12}"`. -/
def formatSampleRow (r : WalletRecord) : String :=
  padRightTo r.wallet_name 11 ++ " | " ++
    padLeftTo (toString r.rebalance) 9 ++ " | " ++
    padLeftTo (toString r.open_order) 10 ++ " | " ++
    padLeftTo (toString r.open_position) 13 ++ " | " ++
    padLeftTo (toString r.new_balance) 11 ++ " | " ++
    padLeftTo (toString r.check_balance) 12

/-- `print("-" * n)`. -/
def dashLine (n : Nat) : String :=
  String.mk (List.replicate n '-')

/-- The column header line printed above both sample tables. -/
def headerLine : String :=
  "wallet_name | rebalance | open_order | open_position | new_balance | check_balance"

/-- Database events of a run.  The script only ever issues the read events,
but the event language also has writes so that read-only-ness is a real
property of the trace, not of the language. -/
inductive DbEvent where
  | connect
  | readCountAll
  | readCountField (f : FieldName)
  | readSelectFirst (n : Nat)
  | readSelectRandom (n : Nat)
  | closeConn
  | insertRow (r : WalletRecord)
  | deleteRows
deriving DecidableEq, Repr

/-- Whether an event mutates the database. -/
def isWriteEvent : DbEvent → Bool
  | .insertRow _ => true
  | .deleteRows => true
  | _ => false

/-- Effect of one event on the database contents: reads (and connection
management) leave the table unchanged, writes mutate it. -/
def applyEvent (db : List WalletRecord) : DbEvent → List WalletRecord
  | .insertRow r => db ++ [r]
  | .deleteRows => []
  | _ => db

/-- Database contents after a trace of events. -/
def runEvents (db : List WalletRecord) (es : List DbEvent) : List WalletRecord :=
  es.foldl applyEvent db

/-- Result of one run of the script: the lines printed to standard output,
the trace of database events, the two fetched samples, and whether the run
completed (`ok = false` models the uncaught `ZeroDivisionError`). -/
structure RunResult where
  output : List String
  events : List DbEvent
  firstSample : List WalletRecord
  randomSample : List WalletRecord
  ok : Bool
deriving Repr

/-- The four lines printed before any per-field statistics line:
total count, the blank line and title from
`print("\nField Statistics (count of 1s):")`, and `print("-" * 40)`. -/
def introLines (N : Nat) : List String :=
  ["Total wallet records: " ++ toString N, "",
   "Field Statistics (count of 1s):", dashLine 40]

/-- Shallow embedding of `query_wallet_database` from
`src/ZIP4PAPA/database/query_database.py`.

`table` is the contents of the `wallets` table in natural storage order;
`randPerm` is the permutation of the table produced by `ORDER BY RANDOM()`.

When the table is empty, the first loop iteration computes
`count_ones / total_count` with `total_count = 0` and raises
`ZeroDivisionError` after the rebalance count query has executed but before
any statistics line is printed; the run stops there with `ok = false` and
`conn.close()` is never reached. -/
def query_wallet_database (table randPerm : List WalletRecord) : RunResult :=
  let N := table.length
  if N = 0 then
    { output := introLines N
      events := [.connect, .readCountAll, .readCountField .rebalance]
      firstSample := []
      randomSample := []
      ok := false }
  else
    { output := introLines N
        ++ fieldsList.map (statsLine table N)
        ++ ["", "Sample Records (first 10):", dashLine 80, headerLine, dashLine 80]
        ++ (table.take 10).map formatSampleRow
        ++ ["", "Random Records (5 samples):", dashLine 80, headerLine, dashLine 80]
        ++ (randPerm.take 5).map formatSampleRow
      events := [.connect, .readCountAll]
        ++ fieldsList.map .readCountField
        ++ [.readSelectFirst 10, .readSelectRandom 5, .closeConn]
      firstSample := table.take 10
      randomSample := randPerm.take 5
      ok := true }

/-! ## Rounding model

Python rounds both in `round(x, 1)` and in `f"{x:5.1f}"` with
round-half-to-even.  `roundHalfEvenQ` is that rounding on exact rationals;
`pyRound1` follows the spec's formula `round(K/N*100, 1)`. -/

/-- Round a rational to the nearest integer, ties to the even neighbour. -/
def roundHalfEvenQ (x : ℚ) : ℤ :=
  if Int.fract x < 1/2 then Int.floor x
  else if 1/2 < Int.fract x then Int.floor x + 1
  else if Int.floor x % 2 = 0 then Int.floor x else Int.floor x + 1

/-- The spec's `round(v, 1)` (Python semantics, half-to-even) on an exact
rational `v`: the nearest multiple of `1/10`. -/
def pyRound1 (x : ℚ) : ℚ := (roundHalfEvenQ (x * 10) : ℚ) / 10

/-- The integer tenths algorithm used by the formatting embedding agrees with
half-even rational rounding of `1000*K/N`. -/
theorem pyTenths_eq_round (K N : Nat) (h : 0 < N) :
    (pyTenths K N : ℤ) = roundHalfEvenQ ((1000 * K : ℚ) / N) := by
  have hN : (0:ℚ) < (N:ℚ) := by exact_mod_cast h
  have hdm : N * (1000 * K / N) + 1000 * K % N = 1000 * K := Nat.div_add_mod (1000 * K) N
  have hr : 1000 * K % N < N := Nat.mod_lt _ h
  have hq : ((1000 * K : ℕ) : ℚ) = (N:ℚ) * ((1000 * K / N : ℕ) : ℚ) + ((1000 * K % N : ℕ) : ℚ) := by
    exact_mod_cast hdm.symm
  have key : (1000 * K : ℚ) / N = ((1000 * K % N : ℕ) : ℚ) / N + ((1000 * K / N : ℕ) : ℚ) := by
    field_simp
    push_cast at hq ⊢
    linarith
  have hfr_nonneg : (0:ℚ) ≤ ((1000 * K % N : ℕ) : ℚ) / N := by positivity
  have hfr_lt : ((1000 * K % N : ℕ) : ℚ) / N < 1 := by
    rw [div_lt_one hN]; exact_mod_cast hr
  have hfloor : Int.floor ((1000 * K : ℚ) / N) = ((1000 * K / N : ℕ) : ℤ) := by
    rw [key, Int.floor_add_nat, Int.floor_eq_zero_iff.mpr ⟨hfr_nonneg, hfr_lt⟩, zero_add]
  have hfract : Int.fract ((1000 * K : ℚ) / N) = ((1000 * K % N : ℕ) : ℚ) / N := by
    rw [key, Int.fract_add_nat, Int.fract_eq_self.mpr ⟨hfr_nonneg, hfr_lt⟩]
  have hlt : (((1000 * K % N : ℕ) : ℚ) / N < 1/2) ↔ 2 * (1000 * K % N) < N := by
    rw [div_lt_div_iff₀ hN (by norm_num : (0:ℚ) < 2), one_mul,
      show ((1000 * K % N : ℕ):ℚ) * 2 = ((2 * (1000 * K % N) : ℕ) : ℚ) by push_cast; ring,
      Nat.cast_lt]
  have hgt : (1/2 < ((1000 * K % N : ℕ) : ℚ) / N) ↔ N < 2 * (1000 * K % N) := by
    rw [div_lt_div_iff₀ (by norm_num : (0:ℚ) < 2) hN, one_mul,
      show ((1000 * K % N : ℕ):ℚ) * 2 = ((2 * (1000 * K % N) : ℕ) : ℚ) by push_cast; ring,
      Nat.cast_lt]
  have hpar : (((1000 * K / N : ℕ) : ℤ) % 2 = 0) ↔ ((1000 * K / N) % 2 = 0) := by omega
  simp only [pyTenths, roundHalfEvenQ, hfloor, hfract]
  by_cases h1 : 2 * (1000 * K % N) < N
  · rw [if_pos h1, if_pos (hlt.mpr h1)]
  · rw [if_neg h1, if_neg (fun hx => h1 (hlt.mp hx))]
    by_cases h2 : N < 2 * (1000 * K % N)
    · rw [if_pos h2, if_pos (hgt.mpr h2)]
      push_cast
      ring
    · rw [if_neg h2, if_neg (fun hx => h2 (hgt.mp hx))]
      by_cases h3 : (1000 * K / N) % 2 = 0
      · rw [if_pos h3, if_pos (hpar.mpr h3)]
      · rw [if_neg h3, if_neg (fun hx => h3 (hpar.mp hx))]
        push_cast
        ring

/-! ## Layout helper lemmas -/

theorem length_spaces (n : Nat) : (spaces n).length = n := by
  simp [spaces, String.length_mk]

theorem length_padLeftTo (s : String) (w : Nat) :
    (padLeftTo s w).length = max w s.length := by
  simp [padLeftTo, String.length_append, length_spaces]
  omega

theorem length_padRightTo (s : String) (w : Nat) :
    (padRightTo s w).length = max w s.length := by
  simp [padRightTo, String.length_append, length_spaces]
  omega

theorem padLeftTo_data (s : String) (w : Nat) :
    (padLeftTo s w).data = List.replicate (w - s.length) ' ' ++ s.data := by
  simp [padLeftTo, String.data_append, spaces]

theorem padRightTo_data (s : String) (w : Nat) :
    (padRightTo s w).data = s.data ++ List.replicate (w - s.length) ' ' := by
  simp [padRightTo, String.data_append, spaces]

/-- Right alignment: the padded text ends with the original text. -/
theorem suffix_padLeftTo (s : String) (w : Nat) :
    List.IsSuffix s.data (padLeftTo s w).data := by
  rw [padLeftTo_data]
  exact List.suffix_append _ _

/-- Left alignment: the padded text starts with the original text. -/
theorem isPrefix_padRightTo (s : String) (w : Nat) :
    List.IsPrefix s.data (padRightTo s w).data := by
  rw [padRightTo_data]
  exact List.prefix_append _ _

/-- No truncation: text at least as wide as the field is kept whole. -/
theorem padRightTo_of_ge (s : String) (w : Nat) (h : w ≤ s.length) :
    padRightTo s w = s := by
  have : (padRightTo s w).data = s.data := by
    rw [padRightTo_data, Nat.sub_eq_zero_of_le h]
    simp
  exact congrArg String.mk this

/-! ## Run structure helpers -/

/-- Output of a run over a non-empty table, unfolded. -/
theorem run_output_of_pos (table perm : List WalletRecord) (h : table.length ≠ 0) :
    (query_wallet_database table perm).output =
      introLines table.length
        ++ fieldsList.map (statsLine table table.length)
        ++ ["", "Sample Records (first 10):", dashLine 80, headerLine, dashLine 80]
        ++ (table.take 10).map formatSampleRow
        ++ ["", "Random Records (5 samples):", dashLine 80, headerLine, dashLine 80]
        ++ (perm.take 5).map formatSampleRow := by
  simp [query_wallet_database, h]

theorem run_of_zero (table perm : List WalletRecord) (h : table.length = 0) :
    query_wallet_database table perm =
      { output := introLines 0
        events := [.connect, .readCountAll, .readCountField .rebalance]
        firstSample := []
        randomSample := []
        ok := false } := by
  simp [query_wallet_database, h]

theorem run_samples_of_pos (table perm : List WalletRecord) (h : table.length ≠ 0) :
    (query_wallet_database table perm).firstSample = table.take 10 ∧
    (query_wallet_database table perm).randomSample = perm.take 5 ∧
    (query_wallet_database table perm).ok = true ∧
    (query_wallet_database table perm).events =
      [.connect, .readCountAll] ++ fieldsList.map .readCountField
        ++ [.readSelectFirst 10, .readSelectRandom 5, .closeConn] := by
  simp [query_wallet_database, h]

/-- A concrete table used to witness the general theorems: 4 rows, two of
them with `rebalance = 1`. -/
def sampleTable : List WalletRecord :=
  [⟨"w1", 1, 0, 0, 0, 0⟩, ⟨"w2", 0, 1, 1, 1, 1⟩,
   ⟨"w3", 1, 0, 0, 0, 0⟩, ⟨"w4", 0, 0, 1, 0, 1⟩]

/-- C1: on an empty `wallets` table the run stops with the division-by-zero
failure (`ok = false`): the only printed lines are the total-count line, the
blank line, the statistics title and the dash rule; no per-field statistics
line and no percentage (no `'%'` character) is ever printed. -/
theorem emptyTable_divByZero_halts (table perm : List WalletRecord)
    (h : table.length = 0) :
    (query_wallet_database table perm).ok = false ∧
    (query_wallet_database table perm).output =
      ["Total wallet records: 0", "", "Field Statistics (count of 1s):", dashLine 40] ∧
    ∀ line ∈ (query_wallet_database table perm).output, line.data.contains '%' = false := by
  rw [run_of_zero table perm h]
  refine ⟨rfl, by decide, by decide⟩

theorem emptyTable_divByZero_halts_witness :
    (query_wallet_database [] []).ok = false ∧
    (query_wallet_database [] []).output =
      ["Total wallet records: 0", "", "Field Statistics (count of 1s):", dashLine 40] ∧
    ∀ line ∈ (query_wallet_database [] []).output, line.data.contains '%' = false :=
  emptyTable_divByZero_halts [] [] rfl

/-- C4: for the concrete table with 4 rows of which 2 have `rebalance = 1`,
the rebalance statistics line (the first line after the four intro lines) is
exactly `"rebalance      :   2 records ( 50.0%)"`. -/
theorem rebalance_line_concrete :
    (query_wallet_database sampleTable sampleTable).output[4]? =
      some "rebalance      :   2 records ( 50.0%)" := by
  decide

/-- C7: the run leaves the database unchanged — replaying its event trace
over any table returns the table itself, and no event of the trace is a
write. -/
theorem run_frame_readonly (table perm : List WalletRecord) :
    runEvents table (query_wallet_database table perm).events = table ∧
    ∀ e ∈ (query_wallet_database table perm).events, isWriteEvent e = false := by
  by_cases h : table.length = 0 <;>
    simp [query_wallet_database, h, runEvents, applyEvent, fieldsList, isWriteEvent]

/-- C8: when the run completes, `conn.close()` is the very last event, after
every read; when the run fails (empty table), the close event never happens
and the connection is leaked. -/
theorem close_last_or_leaked (table perm : List WalletRecord) :
    ((query_wallet_database table perm).ok = true →
      ∃ es, (query_wallet_database table perm).events = es ++ [DbEvent.closeConn] ∧
        DbEvent.closeConn ∉ es) ∧
    ((query_wallet_database table perm).ok = false →
      DbEvent.closeConn ∉ (query_wallet_database table perm).events) := by
  by_cases h : table.length = 0
  · rw [run_of_zero table perm h]
    exact ⟨fun hx => absurd hx (by decide), fun _ => by decide⟩
  · obtain ⟨-, -, hok, hev⟩ := run_samples_of_pos table perm h
    refine ⟨fun _ => ?_, fun hx => by rw [hok] at hx; exact absurd hx (by decide)⟩
    refine ⟨[.connect, .readCountAll, .readCountField .rebalance,
      .readCountField .open_order, .readCountField .open_position,
      .readCountField .new_balance, .readCountField .check_balance,
      .readSelectFirst 10, .readSelectRandom 5], ?_, by decide⟩
    rw [hev]
    decide

theorem close_last_or_leaked_witness :
    ∃ es, (query_wallet_database sampleTable sampleTable).events = es ++ [DbEvent.closeConn] ∧
      DbEvent.closeConn ∉ es :=
  (close_last_or_leaked sampleTable sampleTable).1 (by decide)

/-- C2: for a non-empty table, each field's statistics line is printed, and
the percentage it shows is exactly the spec's `round(K/N*100, 1)` where `K`
is the number of rows with value `1` in that field and `N` the total row
count. -/
theorem statsLine_percent_eq_round (table perm : List WalletRecord) (f : FieldName)
    (h : 0 < table.length) :
    statsLine table table.length f ∈ (query_wallet_database table perm).output ∧
    statsLine table table.length f =
      padRightTo (fieldStr f) 15 ++ ": " ++
        padLeftTo (toString (countOnes table f)) 3 ++ " records (" ++
        padLeftTo (tenthsRepr (pyTenths (countOnes table f) table.length)) 5 ++ "%)" ∧
    (pyTenths (countOnes table f) table.length : ℚ) / 10 =
      pyRound1 ((countOnes table f : ℚ) / (table.length : ℚ) * 100) := by
  refine ⟨?_, rfl, ?_⟩
  · rw [run_output_of_pos table perm (Nat.pos_iff_ne_zero.mp h)]
    have hf : f ∈ fieldsList := by cases f <;> simp [fieldsList]
    simp only [List.mem_append]
    exact Or.inl (Or.inl (Or.inl (Or.inl (Or.inr
      (List.mem_map_of_mem (statsLine table table.length) hf)))))
  · have hb := pyTenths_eq_round (countOnes table f) table.length h
    rw [pyRound1,
      show (countOnes table f : ℚ) / (table.length : ℚ) * 100 * 10
        = 1000 * (countOnes table f : ℚ) / (table.length : ℚ) by ring,
      ← hb]
    push_cast
    ring

theorem statsLine_percent_eq_round_witness :
    statsLine sampleTable sampleTable.length FieldName.rebalance ∈
      (query_wallet_database sampleTable sampleTable).output ∧
    statsLine sampleTable sampleTable.length FieldName.rebalance =
      padRightTo (fieldStr FieldName.rebalance) 15 ++ ": " ++
        padLeftTo (toString (countOnes sampleTable FieldName.rebalance)) 3 ++ " records (" ++
        padLeftTo (tenthsRepr (pyTenths (countOnes sampleTable FieldName.rebalance)
          sampleTable.length)) 5 ++ "%)" ∧
    (pyTenths (countOnes sampleTable FieldName.rebalance) sampleTable.length : ℚ) / 10 =
      pyRound1 ((countOnes sampleTable FieldName.rebalance : ℚ) / (sampleTable.length : ℚ) * 100) :=
  statsLine_percent_eq_round sampleTable sampleTable FieldName.rebalance (by decide)

/-- C3: for a non-empty table the five statistics lines are exactly the
output lines at positions 4–8, one per flag field, in the order `rebalance,
open_order, open_position, new_balance, check_balance`; each line is the
field name in a 15-character left-aligned cell, `": "`, the one-count
right-aligned in (at least) 3 characters, `" records ("`, the percentage with
one decimal right-aligned in (at least) 5 characters, and `"%)"`. -/
theorem statsSection_order_format (table perm : List WalletRecord)
    (h : 0 < table.length) :
    ((query_wallet_database table perm).output.drop 4).take 5 =
      [statsLine table table.length .rebalance,
       statsLine table table.length .open_order,
       statsLine table table.length .open_position,
       statsLine table table.length .new_balance,
       statsLine table table.length .check_balance] ∧
    (∀ f : FieldName, statsLine table table.length f =
      padRightTo (fieldStr f) 15 ++ ": " ++
        padLeftTo (toString (countOnes table f)) 3 ++ " records (" ++
        padLeftTo (tenthsRepr (pyTenths (countOnes table f) table.length)) 5 ++ "%)") ∧
    (∀ f : FieldName, (padRightTo (fieldStr f) 15).length = 15 ∧
      List.IsPrefix (fieldStr f).data (padRightTo (fieldStr f) 15).data) ∧
    (∀ s : String, (padLeftTo s 3).length = max 3 s.length ∧
      List.IsSuffix s.data (padLeftTo s 3).data) ∧
    (∀ s : String, (padLeftTo s 5).length = max 5 s.length ∧
      List.IsSuffix s.data (padLeftTo s 5).data) := by
  refine ⟨?_, fun f => rfl, fun f => ⟨?_, isPrefix_padRightTo _ _⟩,
    fun s => ⟨length_padLeftTo s 3, suffix_padLeftTo s 3⟩,
    fun s => ⟨length_padLeftTo s 5, suffix_padLeftTo s 5⟩⟩
  · rw [run_output_of_pos table perm (Nat.pos_iff_ne_zero.mp h)]
    simp [introLines, fieldsList]
  · rw [length_padRightTo]
    cases f <;> decide

theorem statsSection_order_format_witness :
    ((query_wallet_database sampleTable sampleTable).output.drop 4).take 5 =
      [statsLine sampleTable sampleTable.length .rebalance,
       statsLine sampleTable sampleTable.length .open_order,
       statsLine sampleTable sampleTable.length .open_position,
       statsLine sampleTable sampleTable.length .new_balance,
       statsLine sampleTable sampleTable.length .check_balance] ∧
    (∀ f : FieldName, statsLine sampleTable sampleTable.length f =
      padRightTo (fieldStr f) 15 ++ ": " ++
        padLeftTo (toString (countOnes sampleTable f)) 3 ++ " records (" ++
        padLeftTo (tenthsRepr (pyTenths (countOnes sampleTable f) sampleTable.length)) 5 ++ "%)") ∧
    (∀ f : FieldName, (padRightTo (fieldStr f) 15).length = 15 ∧
      List.IsPrefix (fieldStr f).data (padRightTo (fieldStr f) 15).data) ∧
    (∀ s : String, (padLeftTo s 3).length = max 3 s.length ∧
      List.IsSuffix s.data (padLeftTo s 3).data) ∧
    (∀ s : String, (padLeftTo s 5).length = max 5 s.length ∧
      List.IsSuffix s.data (padLeftTo s 5).data) :=
  statsSection_order_format sampleTable sampleTable (by decide)

/-- C5: the first-10 sample holds (and the report prints) exactly
`min(10, N)` rows and the random-5 sample exactly `min(5, N)` rows, where
`N` is the table's row count; for a non-empty table the printed report
contains one line per sample row. -/
theorem sample_sizes (table perm : List WalletRecord)
    (h : List.Perm perm table) :
    (query_wallet_database table perm).firstSample.length = min 10 table.length ∧
    (query_wallet_database table perm).randomSample.length = min 5 table.length ∧
    (0 < table.length →
      (query_wallet_database table perm).output =
        introLines table.length
          ++ fieldsList.map (statsLine table table.length)
          ++ ["", "Sample Records (first 10):", dashLine 80, headerLine, dashLine 80]
          ++ (query_wallet_database table perm).firstSample.map formatSampleRow
          ++ ["", "Random Records (5 samples):", dashLine 80, headerLine, dashLine 80]
          ++ (query_wallet_database table perm).randomSample.map formatSampleRow) := by
  by_cases h0 : table.length = 0
  · rw [run_of_zero table perm h0]
    refine ⟨by simp [h0], by simp [h0], fun hpos => absurd h0 (Nat.pos_iff_ne_zero.mp hpos)⟩
  · obtain ⟨h1, h2, -, -⟩ := run_samples_of_pos table perm h0
    refine ⟨by rw [h1]; simp, by rw [h2]; simp [h.length_eq], fun _ => ?_⟩
    rw [h1, h2, run_output_of_pos table perm h0]

theorem sample_sizes_witness :
    (query_wallet_database sampleTable sampleTable).firstSample.length =
      min 10 sampleTable.length ∧
    (query_wallet_database sampleTable sampleTable).randomSample.length =
      min 5 sampleTable.length ∧
    (0 < sampleTable.length →
      (query_wallet_database sampleTable sampleTable).output =
        introLines sampleTable.length
          ++ fieldsList.map (statsLine sampleTable sampleTable.length)
          ++ ["", "Sample Records (first 10):", dashLine 80, headerLine, dashLine 80]
          ++ (query_wallet_database sampleTable sampleTable).firstSample.map formatSampleRow
          ++ ["", "Random Records (5 samples):", dashLine 80, headerLine, dashLine 80]
          ++ (query_wallet_database sampleTable sampleTable).randomSample.map formatSampleRow) :=
  sample_sizes sampleTable sampleTable (List.Perm.refl sampleTable)

/-- C6: every row of the random-5 sample exists in the table, and the sample
is drawn without replacement: no row instance is used more often than it
occurs in the table (the sample's multiset is contained in the table's). -/
theorem randomSample_from_table (table perm : List WalletRecord)
    (h : List.Perm perm table) :
    (∀ r ∈ (query_wallet_database table perm).randomSample, r ∈ table) ∧
    (∀ r : WalletRecord,
      (query_wallet_database table perm).randomSample.count r ≤ table.count r) := by
  by_cases h0 : table.length = 0
  · rw [run_of_zero table perm h0]
    exact ⟨fun r hr => absurd hr (by simp), fun r => by simp⟩
  · obtain ⟨-, h2, -, -⟩ := run_samples_of_pos table perm h0
    rw [h2]
    constructor
    · intro r hr
      exact h.mem_iff.mp (List.mem_of_mem_take hr)
    · intro r
      calc (perm.take 5).count r ≤ perm.count r := (List.take_sublist 5 perm).count_le r
        _ = table.count r := h.count_eq r

theorem randomSample_from_table_witness :
    (∀ r ∈ (query_wallet_database sampleTable sampleTable).randomSample, r ∈ sampleTable) ∧
    (∀ r : WalletRecord,
      (query_wallet_database sampleTable sampleTable).randomSample.count r ≤
        sampleTable.count r) :=
  randomSample_from_table sampleTable sampleTable (List.Perm.refl sampleTable)

/-- C9: the report structure is deterministic — two runs over the same table
contents, differing only in the randomization, print outputs of the same
length that agree on every line above the random-5 sample rows (the last
`min 5 N` lines are the only ones that may differ). -/
theorem report_structure_deterministic (table p1 p2 : List WalletRecord)
    (h1 : List.Perm p1 table) (h2 : List.Perm p2 table) :
    (query_wallet_database table p1).output.length =
      (query_wallet_database table p2).output.length ∧
    ∀ i : Nat, i + min 5 table.length < (query_wallet_database table p1).output.length →
      (query_wallet_database table p1).output[i]? =
        (query_wallet_database table p2).output[i]? := by
  by_cases h0 : table.length = 0
  · rw [run_of_zero table p1 h0, run_of_zero table p2 h0]
    exact ⟨rfl, fun i _ => rfl⟩
  · rw [run_output_of_pos table p1 h0, run_output_of_pos table p2 h0]
    constructor
    · simp [h1.length_eq, h2.length_eq]
    · intro i hi
      have hlen1 : ((p1.take 5).map formatSampleRow).length = min 5 table.length := by
        simp [h1.length_eq]
      rw [List.length_append, hlen1] at hi
      have hx : i < (introLines table.length ++ fieldsList.map (statsLine table table.length)
          ++ ["", "Sample Records (first 10):", dashLine 80, headerLine, dashLine 80]
          ++ (table.take 10).map formatSampleRow
          ++ ["", "Random Records (5 samples):", dashLine 80, headerLine, dashLine 80]).length := by
        omega
      rw [List.getElem?_append_left hx, List.getElem?_append_left hx]

theorem report_structure_deterministic_witness :
    (query_wallet_database sampleTable sampleTable).output.length =
      (query_wallet_database sampleTable sampleTable.reverse).output.length :=
  (report_structure_deterministic sampleTable sampleTable sampleTable.reverse
    (List.Perm.refl sampleTable) (List.reverse_perm sampleTable)).1

/-- C10: every printed sample row (first-10 or random-5) is the fixed layout
with separator `" | "`: the wallet name left-aligned in an 11-character
field and never truncated (it stays a prefix of the line, and a name of 11
or more characters is kept whole, widening the row), and the five flag
values right-aligned in fields of widths 9, 10, 13, 11 and 12. -/
theorem sampleRow_layout (table perm : List WalletRecord) (r : WalletRecord)
    (h : r ∈ (query_wallet_database table perm).firstSample ∨
         r ∈ (query_wallet_database table perm).randomSample) :
    formatSampleRow r ∈ (query_wallet_database table perm).output ∧
    formatSampleRow r =
      padRightTo r.wallet_name 11 ++ " | " ++
        padLeftTo (toString r.rebalance) 9 ++ " | " ++
        padLeftTo (toString r.open_order) 10 ++ " | " ++
        padLeftTo (toString r.open_position) 13 ++ " | " ++
        padLeftTo (toString r.new_balance) 11 ++ " | " ++
        padLeftTo (toString r.check_balance) 12 ∧
    List.IsPrefix r.wallet_name.data (formatSampleRow r).data ∧
    (11 ≤ r.wallet_name.length → padRightTo r.wallet_name 11 = r.wallet_name) ∧
    (padRightTo r.wallet_name 11).length = max 11 r.wallet_name.length ∧
    (∀ s : String, ∀ w : Nat,
      padLeftTo s w = spaces (w - s.length) ++ s ∧
      (padLeftTo s w).length = max w s.length ∧
      List.IsSuffix s.data (padLeftTo s w).data) := by
  have hdata : (formatSampleRow r).data = (padRightTo r.wallet_name 11).data ++
      (" | " ++ padLeftTo (toString r.rebalance) 9 ++ " | " ++
        padLeftTo (toString r.open_order) 10 ++ " | " ++
        padLeftTo (toString r.open_position) 13 ++ " | " ++
        padLeftTo (toString r.new_balance) 11 ++ " | " ++
        padLeftTo (toString r.check_balance) 12).data := by
    simp [formatSampleRow, String.data_append]
  refine ⟨?_, rfl, (isPrefix_padRightTo r.wallet_name 11).trans ⟨_, hdata.symm⟩,
    padRightTo_of_ge r.wallet_name 11, length_padRightTo r.wallet_name 11,
    fun s w => ⟨rfl, length_padLeftTo s w, suffix_padLeftTo s w⟩⟩
  by_cases h0 : table.length = 0
  · rw [run_of_zero table perm h0] at h
    simp at h
  · obtain ⟨hf, hrnd, -, -⟩ := run_samples_of_pos table perm h0
    rw [run_output_of_pos table perm h0]
    rcases h with hm | hm
    · rw [hf] at hm
      exact List.mem_append_left _ (List.mem_append_left _
        (List.mem_append_right _ (List.mem_map_of_mem _ hm)))
    · rw [hrnd] at hm
      exact List.mem_append_right _ (List.mem_map_of_mem _ hm)

theorem sampleRow_layout_witness :
    formatSampleRow ⟨"w1", 1, 0, 0, 0, 0⟩ ∈
      (query_wallet_database sampleTable sampleTable).output :=
  (sampleRow_layout sampleTable sampleTable ⟨"w1", 1, 0, 0, 0, 0⟩ (Or.inl (by decide))).1
